import Mathlib

/-!
A shallow embedding of the MiniLisp interpreter (src/main.cpp, src/wasm.cpp):
the symbol table, both parser variants, the AST, the function store and
environment, and the stateful evaluator `eval_with_env` with its builtins.

Modelling conventions:
* C++ `long` is modelled as `Int` (overflow is implementation-defined in the
  source and no claim depends on a fixed width).
* `p_assert(false, msg)` / thrown `std::runtime_error` is modelled as
  `Except.error msg` with the source's message string.
* The shared `FunctionStore` (reached through the `fn_store` pointer held by
  every `Env`) is threaded explicitly through evaluation; an error result
  still carries the store as mutated so far, exactly as the C++ global store
  retains mutations when an exception propagates.
* Recursion in `parse`/`eval_with_env` maps onto the host call stack in the
  source, which has no depth limit; here it is bounded by an explicit fuel
  parameter, with exhaustion reported as the error "Out of fuel" (a state the
  C++ program reaches only by exhausting its stack).
-/

namespace MiniLisp

/-- An Atom is either a number (C++ `long`) or a symbol (`string_view`). -/
inductive Atom where
  | int : Int → Atom
  | sym : String → Atom
deriving Repr, DecidableEq

/-- An S-expression: the C++ struct holds `optional<Atom>`/`optional<List>`
with exactly one populated by the two constructors, i.e. a sum. -/
inductive SExpr where
  | atom : Atom → SExpr
  | list : List SExpr → SExpr
deriving Repr

/-- A Lambda stores parameter names and the body as a `List` (C++ `List body`). -/
structure Lambda where
  params : List String
  body : List SExpr
deriving Repr

/-- The `Lambda(params, body)` constructor: a list body is stored as-is, a
non-list (atom) body is wrapped into a one-element list. -/
def mkLambda (p : List String) (b : SExpr) : Lambda :=
  match b with
  | .list l => { params := p, body := l }
  | .atom a => { params := p, body := [SExpr.atom a] }

/-- `Lambda::get_body`: a stored one-element list whose element is an atom is
returned as that bare atom; anything else is returned as the stored list. -/
def Lambda.get_body (f : Lambda) : SExpr :=
  match f.body with
  | [SExpr.atom a] => SExpr.atom a
  | l => SExpr.list l

/-- The global function store: an ordered list of (name, Lambda) pairs. -/
abbrev FunctionStore := List (String × Lambda)

/-- `FunctionStore::lookup`: scan from the most recently appended entry
(`rbegin``..``rend` in the source) and return the first match. -/
def fsLookup (fs : FunctionStore) (name : String) : Option Lambda :=
  (fs.reverse.find? (fun p => p.1 == name)).map Prod.snd

/-- `FunctionStore::define`: erase every entry with the same name
(`remove_if`), then append the new pair. -/
def fsDefine (fs : FunctionStore) (name : String) (fn : Lambda) : FunctionStore :=
  fs.filter (fun p => !(p.1 == name)) ++ [(name, fn)]

/-- Variable bindings of an `Env` (the `fn_store` pointer of the C++ `Env` is
modelled by threading the `FunctionStore` separately). -/
abbrev Bindings := List (String × SExpr)

/-- `Env::lookup`: scan bindings most-recently-added first. -/
def envLookup (env : Bindings) (name : String) : Option SExpr :=
  (env.reverse.find? (fun p => p.1 == name)).map Prod.snd

/-- Whitespace recognised by `skip_ws`: space, newline, tab. -/
def isWsChar (c : Char) : Bool := c = ' ' || c = '\n' || c = '\t'

/-- The characters that terminate the atom scan in `parse_atom` and
`parse_atom_interned`: space, ')', the quote character, newline, tab.
Note the source does NOT stop at '('. -/
def isDelim (c : Char) : Bool :=
  c = ' ' || c = ')' || c = '\'' || c = '\n' || c = '\t'

/-- '0' <= c && c <= '9' as used throughout the source. -/
def isDigitChar (c : Char) : Bool := decide ('0' ≤ c) && decide (c ≤ '9')

/-- The digit-accumulation loop of `s_to_l`. -/
def s_to_l_loop : Int → List Char → Except String Int
  | res, [] => .ok res
  | res, c :: cs =>
    if isDigitChar c then
      s_to_l_loop (res * 10 + ((c.toNat : Int) - ('0'.toNat : Int))) cs
    else .error "Invalid number"

/-- `s_to_l`: optional leading minus, then digits; a non-digit raises
"Invalid number". -/
def s_to_l (s : List Char) : Except String Int :=
  match s with
  | '-' :: rest =>
    match s_to_l_loop 0 rest with
    | .ok r => .ok (-r)
    | .error m => .error m
  | _ => s_to_l_loop 0 s

/-- The numeral test of `parse_atom` on the scanned token `val`: a leading
digit with all following characters digits, or a leading '-' followed by a
nonempty all-digit run; everything else (including a lone "-") is a symbol. -/
def is_number_token : List Char → Bool
  | [] => false
  | c :: rest =>
    if c = '-' then
      match rest with
      | [] => false
      | _ :: _ => rest.all isDigitChar
    else if isDigitChar c then rest.all isDigitChar
    else false

/-- `parse_atom`: scan the maximal run of non-delimiter characters
(`while len < s.size && s[len] != ' ' && s[len] != ')' && ...`), error on an
empty run, then classify as number or symbol. Returns the atom and the
remaining input. -/
def parse_atom (s : List Char) : Except String (Atom × List Char) :=
  let val := s.takeWhile (fun c => !isDelim c)
  if val.length = 0 then .error "Empty atom"
  else if is_number_token val then
    match s_to_l val with
    | .ok n => .ok (Atom.int n, s.drop val.length)
    | .error m => .error m
  else .ok (Atom.sym (String.mk val), s.drop val.length)

/-- `SymbolTable::intern`: return a handle byte-equal to the argument; append
the string to the table when it is not yet present. -/
def intern (tbl : List String) (s : String) : String × List String :=
  if tbl.contains s then (s, tbl) else (s, tbl ++ [s])

/-- `parse_atom_interned`: same scan and classification as `parse_atom`, but a
symbol is interned into the global table (threaded here as `tbl`). -/
def parse_atom_interned (tbl : List String) (s : List Char) :
    Except String (Atom × List Char) × List String :=
  let val := s.takeWhile (fun c => !isDelim c)
  if val.length = 0 then (.error "Empty atom", tbl)
  else if is_number_token val then
    match s_to_l val with
    | .ok n => (.ok (Atom.int n, s.drop val.length), tbl)
    | .error m => (.error m, tbl)
  else
    let r := intern tbl (String.mk val)
    (.ok (Atom.sym r.1, s.drop val.length), r.2)

/-- The `parse_list` loop, parameterised by the function used to parse each
element (`parse` at the current recursion depth). The '(' has already been
consumed by the caller. Fuel bounds the loop. -/
def parse_list_with (p : List Char → Except String (SExpr × List Char)) :
    Nat → List Char → Except String (List SExpr × List Char)
  | 0, _ => .error "Out of fuel"
  | n + 1, s =>
    let s1 := s.dropWhile isWsChar
    match s1 with
    | [] => .error "Unterminated list"
    | c :: rest =>
      if c = ')' then .ok ([], rest)
      else
        match p s1 with
        | .error m => .error m
        | .ok (e, r) =>
          match parse_list_with p n r with
          | .error m => .error m
          | .ok (l, r2) => .ok (e :: l, r2)

/-- `parse`: skip whitespace; quote sugar builds `(quote e)`; '(' starts a
list; otherwise an atom. -/
def parse : Nat → List Char → Except String (SExpr × List Char)
  | 0, _ => .error "Out of fuel"
  | n + 1, s =>
    let s1 := s.dropWhile isWsChar
    match s1 with
    | [] => .error "Unexpected end of input"
    | c :: rest =>
      if c = '\'' then
        match parse n rest with
        | .error m => .error m
        | .ok (e, r) => .ok (SExpr.list [SExpr.atom (Atom.sym "quote"), e], r)
      else if c = '(' then
        match parse_list_with (parse n) n rest with
        | .error m => .error m
        | .ok (l, r) => .ok (SExpr.list l, r)
      else
        match parse_atom s1 with
        | .error m => .error m
        | .ok (a, r) => .ok (SExpr.atom a, r)

/-- `get_long`: the evaluated operand must be an integer atom. -/
def getLong (e : SExpr) : Except String Int :=
  match e with
  | .atom (.int n) => .ok n
  | _ => .error "Expected a number"

/-- `get_long` over a whole operand list (the `transform_reduce` traversals). -/
def getLongs : List SExpr → Except String (List Int)
  | [] => .ok []
  | e :: es =>
    match getLong e with
    | .error m => .error m
    | .ok n =>
      match getLongs es with
      | .error m => .error m
      | .ok ns => .ok (n :: ns)

/-- `apply_op`: the arithmetic and list builtins, over already-evaluated
operands. Division is C++ `long` division: truncation toward zero. -/
def apply_op (op : String) (operands : List SExpr) : Except String SExpr :=
  if op = "+" then
    match getLongs operands with
    | .error m => .error m
    | .ok ns => .ok (SExpr.atom (Atom.int (ns.foldl (· + ·) 0)))
  else if op = "*" then
    match getLongs operands with
    | .error m => .error m
    | .ok ns => .ok (SExpr.atom (Atom.int (ns.foldl (· * ·) 1)))
  else if op = "-" then
    match operands with
    | [] => .error "'-' requires at least one argument"
    | x :: rest =>
      match getLong x with
      | .error m => .error m
      | .ok first =>
        match getLongs rest with
        | .error m => .error m
        | .ok ns => .ok (SExpr.atom (Atom.int (ns.foldl (· - ·) first)))
  else if op = "/" then
    match operands with
    | [x, y] =>
      match getLong x with
      | .error m => .error m
      | .ok a =>
        match getLong y with
        | .error m => .error m
        | .ok b =>
          if b = 0 then .error "Division by zero"
          else .ok (SExpr.atom (Atom.int (Int.tdiv a b)))
    | _ => .error "'/' requires exactly two arguments"
  else if op = "car" then
    match operands with
    | [arg] =>
      match arg with
      | .list [] => .error "'car' on empty list"
      | .list (x :: _) => .ok x
      | .atom _ => .error "'car' argument must be a list"
    | _ => .error "'car' requires one argument"
  else if op = "cdr" then
    match operands with
    | [arg] =>
      match arg with
      | .list [] => .error "'cdr' on empty list"
      | .list (_ :: rest) => .ok (SExpr.list rest)
      | .atom _ => .error "'cdr' argument must be a list"
    | _ => .error "'cdr' requires one argument"
  else .error "Unknown operator"

/-- One comparison builtin: exactly two operands, both integers, result 1/0. -/
def cmpOp (msg : String) (test : Int → Int → Bool) (operands : List SExpr) :
    Except String SExpr :=
  match operands with
  | [x, y] =>
    match getLong x with
    | .error m => .error m
    | .ok a =>
      match getLong y with
      | .error m => .error m
      | .ok b => .ok (SExpr.atom (Atom.int (if test a b then 1 else 0)))
  | _ => .error msg

/-- The parameter-symbol extraction loop of the `defun` special form. -/
def symList : List SExpr → Except String (List String)
  | [] => .ok []
  | .atom (.sym s) :: rest =>
    match symList rest with
    | .error m => .error m
    | .ok ss => .ok (s :: ss)
  | _ :: _ => .error "Parameter must be a symbol"

/-- `apply_with_env`, parameterised by the evaluator used for a user-defined
function's body (`eval_with_env` at the current fuel): comparisons first, then
the function store, then fallback to `apply_op`. -/
def apply_with_envW
    (ev : SExpr → Bindings → FunctionStore → Except String SExpr × FunctionStore)
    (op : String) (operands : List SExpr) (env : Bindings) (fs : FunctionStore) :
    Except String SExpr × FunctionStore :=
  if op = "<" then
    (cmpOp "'<' requires two arguments" (fun a b => decide (a < b)) operands, fs)
  else if op = ">" then
    (cmpOp "'>' requires two arguments" (fun a b => decide (a > b)) operands, fs)
  else if op = "=" then
    (cmpOp "'=' requires two arguments" (fun a b => decide (a = b)) operands, fs)
  else if op = "<=" then
    (cmpOp "'<=' requires two arguments" (fun a b => decide (a ≤ b)) operands, fs)
  else if op = ">=" then
    (cmpOp "'>=' requires two arguments" (fun a b => decide (a ≥ b)) operands, fs)
  else
    match fsLookup fs op with
    | some fn =>
      if operands.length = fn.params.length then
        ev fn.get_body (env ++ fn.params.zip operands) fs
      else (.error "Wrong number of arguments", fs)
    | none => (apply_op op operands, fs)

/-- The operand-evaluation loop of `eval_with_env` (left-to-right, eager),
parameterised by the evaluator; the store is threaded through and an error
aborts the loop, keeping the store mutated so far. -/
def evalArgsWith
    (ev : SExpr → Bindings → FunctionStore → Except String SExpr × FunctionStore) :
    List SExpr → Bindings → FunctionStore →
      Except String (List SExpr) × FunctionStore
  | [], _, fs => (.ok [], fs)
  | e :: rest, env, fs =>
    match ev e env fs with
    | (.error m, fs1) => (.error m, fs1)
    | (.ok v, fs1) =>
      match evalArgsWith ev rest env fs1 with
      | (.error m, fs2) => (.error m, fs2)
      | (.ok vs, fs2) => (.ok (v :: vs), fs2)

/-- `eval_with_env`: the stateful evaluator. Integers self-evaluate; symbols
are looked up in the bindings; `quote`, `if`, `defun` are special forms; any
other list evaluates all operands left-to-right and applies the operator. -/
def eval_with_env : Nat → SExpr → Bindings → FunctionStore →
    Except String SExpr × FunctionStore
  | 0, _, _, fs => (.error "Out of fuel", fs)
  | n + 1, e, env, fs =>
    match e with
    | .atom (.int _) => (.ok e, fs)
    | .atom (.sym name) =>
      match envLookup env name with
      | some v => (.ok v, fs)
      | none => (.error "Unbound variable", fs)
    | .list [] => (.error "Cannot eval empty list", fs)
    | .list (opExpr :: args) =>
      match opExpr with
      | .atom (.sym op) =>
        if op = "quote" then
          match args with
          | [x] => (.ok x, fs)
          | _ => (.error "'quote' requires exactly one argument", fs)
        else if op = "if" then
          match args with
          | [c, t, el] =>
            match eval_with_env n c env fs with
            | (.error m, fs1) => (.error m, fs1)
            | (.ok cv, fs1) =>
              match getLong cv with
              | .error m => (.error m, fs1)
              | .ok cval =>
                if cval ≠ 0 then eval_with_env n t env fs1
                else eval_with_env n el env fs1
          | _ => (.error "'if' requires exactly 3 arguments: (if cond then else)", fs)
        else if op = "defun" then
          match args with
          | [nameE, paramsE, bodyE] =>
            match nameE with
            | .atom (.sym fname) =>
              match paramsE with
              | .list pl =>
                match symList pl with
                | .error m => (.error m, fs)
                | .ok params =>
                  (.ok (SExpr.atom (Atom.sym fname)),
                   fsDefine fs fname (mkLambda params bodyE))
              | .atom _ => (.error "Parameters must be a list", fs)
            | _ => (.error "Function name must be a symbol", fs)
          | _ => (.error "'defun' requires: (defun name (params...) body)", fs)
        else
          match evalArgsWith (eval_with_env n) args env fs with
          | (.error m, fs1) => (.error m, fs1)
          | (.ok vals, fs1) => apply_with_envW (eval_with_env n) op vals env fs1
      | .atom (.int _) => (.error "Operator must be a symbol", fs)
      | .list _ => (.error "Operator must be an atom", fs)

/-- `apply_with_env` at a given fuel: the body of a user-defined function is
evaluated by `eval_with_env` at that fuel. -/
def apply_with_env (fuel : Nat) (op : String) (operands : List SExpr)
    (env : Bindings) (fs : FunctionStore) :
    Except String SExpr × FunctionStore :=
  apply_with_envW (eval_with_env fuel) op operands env fs

/-- One top-level `evaluate(text)` call against the session state: parse one
expression (ignoring any leftover text, as the REPL and WASM entry points do)
and evaluate it against the session bindings and function store. -/
def evaluate (fuel : Nat) (text : String) (env : Bindings) (fs : FunctionStore) :
    Except String SExpr × FunctionStore :=
  match parse fuel text.toList with
  | .error m => (.error m, fs)
  | .ok (ast, _) => eval_with_env fuel ast env fs

/-! ## Helper lemmas -/

theorem dropWhile_eq_drop_len (p : Char → Bool) :
    ∀ s : List Char, s.dropWhile p = s.drop (s.takeWhile p).length := by
  intro s
  induction s with
  | nil => rfl
  | cons c cs ih =>
    by_cases h : p c
    · simp [List.takeWhile_cons, List.dropWhile_cons, h, ih]
    · simp [List.takeWhile_cons, List.dropWhile_cons, h]

theorem dropWhile_head_not (p : Char → Bool) :
    ∀ s : List Char, s.dropWhile p = [] ∨
      ∃ c cs, s.dropWhile p = c :: cs ∧ p c = false := by
  intro s
  induction s with
  | nil => exact Or.inl rfl
  | cons c cs ih =>
    by_cases h : p c
    · simpa [List.dropWhile_cons, h] using ih
    · exact Or.inr ⟨c, cs, by simp [List.dropWhile_cons, h], by simpa using h⟩

theorem s_to_l_loop_ok (cs : List Char) (h : cs.all isDigitChar = true) :
    ∀ acc : Int, ∃ n, s_to_l_loop acc cs = .ok n := by
  induction cs with
  | nil => exact fun acc => ⟨acc, rfl⟩
  | cons c cs ih =>
    intro acc
    simp only [List.all_cons, Bool.and_eq_true] at h
    simpa [s_to_l_loop, h.1] using ih h.2 _

theorem s_to_l_ok (val : List Char) (h : is_number_token val = true) :
    ∃ n, s_to_l val = .ok n := by
  match val with
  | [] => exact absurd h (by simp [is_number_token])
  | c :: rest =>
    by_cases hm : c = '-'
    · subst hm
      match rest with
      | [] => exact absurd h (by simp [is_number_token])
      | r :: rs =>
        simp only [is_number_token, if_pos rfl] at h
        obtain ⟨n, hn⟩ := s_to_l_loop_ok (r :: rs) h 0
        exact ⟨-n, by simp [s_to_l, hn]⟩
    · have hd : isDigitChar c = true ∧ rest.all isDigitChar = true := by
        simp only [is_number_token, if_neg hm] at h
        by_cases hdig : isDigitChar c = true
        · exact ⟨hdig, by simpa [hdig] using h⟩
        · simp [hdig] at h
      obtain ⟨n, hn⟩ := s_to_l_loop_ok (c :: rest) (by simp [hd.1, hd.2]) 0
      refine ⟨n, ?_⟩
      unfold s_to_l
      split
      · rename_i heq; cases heq; exact absurd rfl hm
      · exact hn

theorem intern_fst (tbl : List String) (s : String) : (intern tbl s).1 = s := by
  unfold intern; split <;> rfl

theorem all_takeWhile_true (p : Char → Bool) (s : List Char) :
    (s.takeWhile p).all p = true := by
  simp only [List.all_eq_true]
  exact fun a h => List.mem_takeWhile_imp h

theorem takeWhile_of_all (p : Char → Bool) :
    ∀ s : List Char, s.all p = true → s.takeWhile p = s := by
  intro s
  induction s with
  | nil => intro _; rfl
  | cons c cs ih =>
    intro h
    simp only [List.all_cons, Bool.and_eq_true] at h
    simp [List.takeWhile_cons, h.1, ih h.2]

/-! ## C1: atom tokenization -/

/-- C1 counterexample: the claim says an atom token ends at the first '('
just as it ends at ')' or whitespace, so tokenizing "a(b)" would have to
yield the atom "a". Instead both parser variants scan past '(': the token is
"a(b" — a token containing '(' — and only ')' stops the scan. -/
theorem c1_atom_token_counterexample :
    parse_atom "a(b)".toList = .ok (Atom.sym "a(b", [')']) ∧
    (parse_atom_interned [] "a(b)".toList).1 = .ok (Atom.sym "a(b", [')']) ∧
    '(' ∈ ("a(b".toList) := by
  refine ⟨rfl, rfl, ?_⟩
  simp [String.toList]

/-- C1 (amended): both parser variants tokenize an atom as the maximal run of
characters that contains no whitespace, no ')', and no '\'' — '(' is NOT a
delimiter and does not end an atom token. Whenever the input starts (after
the delimiter test) with at least one non-delimiter character, `parse_atom`
consumes exactly such a maximal run: the consumed prefix is nonempty and
delimiter-free, and the remaining input is empty or starts with a delimiter;
`parse_atom_interned` returns the same parse result for every symbol table. -/
theorem c1_atom_tokenization (s : List Char)
    (h : s.takeWhile (fun c => !isDelim c) ≠ []) :
    ∃ a rest, parse_atom s = .ok (a, rest) ∧
      (∃ tok, s = tok ++ rest ∧ tok ≠ [] ∧
        tok.all (fun c => !isDelim c) = true ∧
        (rest = [] ∨ ∃ c cs, rest = c :: cs ∧ isDelim c = true)) ∧
      ∀ tbl, (parse_atom_interned tbl s).1 = parse_atom s := by
  have hlen : (s.takeWhile (fun c => !isDelim c)).length ≠ 0 := by
    simpa [List.length_eq_zero] using h
  have hdrop : s.drop (s.takeWhile (fun c => !isDelim c)).length
      = s.dropWhile (fun c => !isDelim c) := (dropWhile_eq_drop_len _ s).symm
  have hmax : s.dropWhile (fun c => !isDelim c) = [] ∨
      ∃ c cs, s.dropWhile (fun c => !isDelim c) = c :: cs ∧ isDelim c = true := by
    rcases dropWhile_head_not (fun c => !isDelim c) s with h0 | ⟨c, cs, hc, hp⟩
    · exact Or.inl h0
    · exact Or.inr ⟨c, cs, hc, by simpa using hp⟩
  have hsplit : s = s.takeWhile (fun c => !isDelim c) ++
      s.dropWhile (fun c => !isDelim c) :=
    (List.takeWhile_append_dropWhile _ _).symm
  have htokprop : ∃ tok, s = tok ++ s.dropWhile (fun c => !isDelim c) ∧ tok ≠ [] ∧
      tok.all (fun c => !isDelim c) = true ∧
      (s.dropWhile (fun c => !isDelim c) = [] ∨
        ∃ c cs, s.dropWhile (fun c => !isDelim c) = c :: cs ∧ isDelim c = true) :=
    ⟨s.takeWhile (fun c => !isDelim c), hsplit, h, all_takeWhile_true _ s, hmax⟩
  have hsame : ∀ tbl, (parse_atom_interned tbl s).1 = parse_atom s := by
    intro tbl
    unfold parse_atom parse_atom_interned
    simp only [if_neg hlen]
    split
    · split <;> rfl
    · simp [intern_fst]
  by_cases hnum : is_number_token (s.takeWhile (fun c => !isDelim c)) = true
  · obtain ⟨n, hn⟩ := s_to_l_ok _ hnum
    refine ⟨Atom.int n, s.dropWhile (fun c => !isDelim c), ?_, htokprop, hsame⟩
    rw [← hdrop]
    simp only [parse_atom]
    rw [if_neg hlen, if_pos hnum, hn]
  · refine ⟨Atom.sym (String.mk (s.takeWhile (fun c => !isDelim c))),
      s.dropWhile (fun c => !isDelim c), ?_, htokprop, hsame⟩
    rw [← hdrop]
    simp only [parse_atom]
    rw [if_neg hlen, if_neg hnum]

/-- C1 witness: the amended tokenization theorem applied to the concrete
input "foo)bar": the consumed token is "foo" and ')' remains. -/
theorem c1_atom_tokenization_witness :
    "foo)bar".toList.takeWhile (fun c => !isDelim c) ≠ [] ∧
    ∃ a rest, parse_atom "foo)bar".toList = .ok (a, rest) ∧
      (∃ tok, "foo)bar".toList = tok ++ rest ∧ tok ≠ [] ∧
        tok.all (fun c => !isDelim c) = true ∧
        (rest = [] ∨ ∃ c cs, rest = c :: cs ∧ isDelim c = true)) ∧
      ∀ tbl, (parse_atom_interned tbl "foo)bar".toList).1
        = parse_atom "foo)bar".toList :=
  ⟨by decide, by
    obtain ⟨a, rest, h1, h2, h3⟩ := c1_atom_tokenization "foo)bar".toList (by decide)
    exact ⟨a, rest, h1, h2, h3⟩⟩

/-! ## C5: numeral detection -/

/-- C5: on an atom token (a nonempty delimiter-free character run), the
parser classifies the token as an Integer exactly when its first character is
a digit and the rest are digits, or it is '-' followed by a nonempty all-digit
run; and a token consisting of the single character '-' parses as the Symbol
"-", not a number. -/
theorem c5_numeral_detection (c : Char) (cs : List Char)
    (hdelim : (c :: cs).all (fun x => !isDelim x) = true) :
    ((∃ n, parse_atom (c :: cs) = .ok (Atom.int n, [])) ↔
      ((isDigitChar c = true ∧ cs.all isDigitChar = true) ∨
        (c = '-' ∧ cs ≠ [] ∧ cs.all isDigitChar = true))) ∧
    parse_atom ['-'] = .ok (Atom.sym "-", []) := by
  have htake : (c :: cs).takeWhile (fun x => !isDelim x) = c :: cs :=
    takeWhile_of_all _ _ hdelim
  have hnum_iff : is_number_token (c :: cs) = true ↔
      ((isDigitChar c = true ∧ cs.all isDigitChar = true) ∨
        (c = '-' ∧ cs ≠ [] ∧ cs.all isDigitChar = true)) := by
    by_cases hm : c = '-'
    · subst hm
      have hnotdig : isDigitChar '-' = false := by decide
      match cs with
      | [] => simp [is_number_token, hnotdig]
      | r :: rs => simp [is_number_token, hnotdig]
    · by_cases hd : isDigitChar c = true
      · simp [is_number_token, hm, hd]
      · simp [is_number_token, hm, hd]
  constructor
  · constructor
    · intro ⟨n, hn⟩
      rw [← hnum_iff]
      by_contra hnot
      have hfalse : is_number_token (c :: cs) = false := by
        simpa using hnot
      unfold parse_atom at hn
      rw [htake] at hn
      simp [hfalse] at hn
    · intro hcond
      have hnum : is_number_token (c :: cs) = true := hnum_iff.mpr hcond
      obtain ⟨n, hn⟩ := s_to_l_ok _ hnum
      refine ⟨n, ?_⟩
      unfold parse_atom
      rw [htake]
      simp [hnum, hn]
  · rfl

/-- C5 witness: the classification applied to the concrete tokens "-12"
(an Integer) and "x2" (a Symbol, since its first character is no digit). -/
theorem c5_numeral_detection_witness :
    ("-12".toList.all (fun x => !isDelim x) = true) ∧
    (∃ n, parse_atom "-12".toList = .ok (Atom.int n, [])) ∧
    ¬ (∃ n, parse_atom "x2".toList = .ok (Atom.int n, [])) := by
  refine ⟨by decide, ?_, ?_⟩
  · exact (c5_numeral_detection '-' ['1', '2'] (by decide)).1.mpr
      (Or.inr ⟨rfl, by decide, by decide⟩)
  · intro hx
    have h := (c5_numeral_detection 'x' ['2'] (by decide)).1.mp hx
    revert h
    decide

/-! ## C2: session state after a failing call -/

theorem symList_map (ps : List String) :
    symList (ps.map (fun p => SExpr.atom (Atom.sym p))) = .ok ps := by
  induction ps with
  | nil => rfl
  | cons p rest ih => simp [symList, ih]

/-- C2 counterexample: the claim says a failing call's own effects — a defun
executed in an operand position before the error arose — are abandoned.
Evaluating `(+ (defun g (x) x) y)` from the empty session fails with
"Unbound variable" (y is unbound), yet afterwards the Function Store contains
the definition of g made inside the failing call. -/
theorem c2_error_state_counterexample :
    (eval_with_env 3
        (SExpr.list [SExpr.atom (Atom.sym "+"),
          SExpr.list [SExpr.atom (Atom.sym "defun"), SExpr.atom (Atom.sym "g"),
            SExpr.list [SExpr.atom (Atom.sym "x")], SExpr.atom (Atom.sym "x")],
          SExpr.atom (Atom.sym "y")])
        [] []).1 = .error "Unbound variable" ∧
    fsLookup
      (eval_with_env 3
        (SExpr.list [SExpr.atom (Atom.sym "+"),
          SExpr.list [SExpr.atom (Atom.sym "defun"), SExpr.atom (Atom.sym "g"),
            SExpr.list [SExpr.atom (Atom.sym "x")], SExpr.atom (Atom.sym "x")],
          SExpr.atom (Atom.sym "y")])
        [] []).2 "g"
      = some (mkLambda ["x"] (SExpr.atom (Atom.sym "x"))) := ⟨rfl, rfl⟩

/-- C2 (amended): a failing top-level call returns an error and no partial
result value, and the state reflects every side effect committed up to the
error point — including a defun executed in an operand position of the
failing call itself, which is NOT rolled back: if the operand after the defun
fails, the whole call fails with that error and the final Function Store is
exactly the store produced by running the defun and then the failing operand. -/
theorem c2_error_state (n : Nat) (fname : String) (ps : List String)
    (bodyE e2 : SExpr) (env : Bindings) (fs fs2 : FunctionStore) (msg : String)
    (h2 : eval_with_env (n + 1) e2 env (fsDefine fs fname (mkLambda ps bodyE))
      = (.error msg, fs2)) :
    eval_with_env (n + 2)
      (SExpr.list [SExpr.atom (Atom.sym "+"),
        SExpr.list [SExpr.atom (Atom.sym "defun"), SExpr.atom (Atom.sym fname),
          SExpr.list (ps.map (fun p => SExpr.atom (Atom.sym p))), bodyE],
        e2])
      env fs
      = (.error msg, fs2) := by
  show (match evalArgsWith (eval_with_env (n + 1)) _ env fs with
    | (Except.error m, fs1) => (Except.error m, fs1)
    | (Except.ok vals, fs1) =>
      apply_with_envW (eval_with_env (n + 1)) "+" vals env fs1) = _
  have hdefun : eval_with_env (n + 1)
      (SExpr.list [SExpr.atom (Atom.sym "defun"), SExpr.atom (Atom.sym fname),
        SExpr.list (ps.map (fun p => SExpr.atom (Atom.sym p))), bodyE]) env fs
      = (.ok (SExpr.atom (Atom.sym fname)), fsDefine fs fname (mkLambda ps bodyE)) := by
    show (match symList (ps.map (fun p => SExpr.atom (Atom.sym p))) with
      | .error m => (Except.error m, fs)
      | .ok params =>
        (Except.ok (SExpr.atom (Atom.sym fname)),
          fsDefine fs fname (mkLambda params bodyE))) = _
    rw [symList_map]
  simp [evalArgsWith, hdefun, h2]

/-- C2 witness: the amended statement applied at the concrete failing call
`(+ (defun g (x) x) y)` from the empty session. -/
theorem c2_error_state_witness :
    eval_with_env 3
      (SExpr.list [SExpr.atom (Atom.sym "+"),
        SExpr.list [SExpr.atom (Atom.sym "defun"), SExpr.atom (Atom.sym "g"),
          SExpr.list (["x"].map (fun p => SExpr.atom (Atom.sym p))),
          SExpr.atom (Atom.sym "x")],
        SExpr.atom (Atom.sym "y")])
      [] []
      = (.error "Unbound variable",
         [("g", mkLambda ["x"] (SExpr.atom (Atom.sym "x")))]) :=
  c2_error_state 1 "g" ["x"] (SExpr.atom (Atom.sym "x"))
    (SExpr.atom (Atom.sym "y")) [] [] _ "Unbound variable" rfl

/-! ## C3: if evaluates exactly one branch -/

/-- C3: for an `if` form with exactly 3 operands whose condition evaluates to
an integer, integer 0 selects the else branch and any other integer the then
branch, and the form's result is exactly the evaluation of the selected
branch from the post-condition state — so the untaken branch is never
evaluated and an error it would raise is never raised. -/
theorem c3_if_short_circuit (n : Nat) (c t el : SExpr) (env : Bindings)
    (fs fs1 : FunctionStore) (v : SExpr) (m : Int)
    (hc : eval_with_env n c env fs = (.ok v, fs1))
    (hv : getLong v = .ok m) :
    (m ≠ 0 →
      eval_with_env (n + 1)
        (SExpr.list [SExpr.atom (Atom.sym "if"), c, t, el]) env fs
        = eval_with_env n t env fs1) ∧
    (m = 0 →
      eval_with_env (n + 1)
        (SExpr.list [SExpr.atom (Atom.sym "if"), c, t, el]) env fs
        = eval_with_env n el env fs1) := by
  constructor
  · intro hm
    show (match eval_with_env n c env fs with
      | (.error m, fs1) => (Except.error m, fs1)
      | (.ok cv, fs1) =>
        match getLong cv with
        | .error m => (Except.error m, fs1)
        | .ok cval =>
          if cval ≠ 0 then eval_with_env n t env fs1
          else eval_with_env n el env fs1) = _
    rw [hc]
    simp [hv, hm]
  · intro hm
    show (match eval_with_env n c env fs with
      | (.error m, fs1) => (Except.error m, fs1)
      | (.ok cv, fs1) =>
        match getLong cv with
        | .error m => (Except.error m, fs1)
        | .ok cval =>
          if cval ≠ 0 then eval_with_env n t env fs1
          else eval_with_env n el env fs1) = _
    rw [hc]
    simp [hv, hm]

/-- C3 witness: `(if (> 3 2) 1 (/ 1 0))` evaluates to 1 and the division by
zero in the untaken else branch is never raised. -/
theorem c3_if_short_circuit_witness :
    eval_with_env 3
      (SExpr.list [SExpr.atom (Atom.sym "if"),
        SExpr.list [SExpr.atom (Atom.sym ">"), SExpr.atom (Atom.int 3),
          SExpr.atom (Atom.int 2)],
        SExpr.atom (Atom.int 1),
        SExpr.list [SExpr.atom (Atom.sym "/"), SExpr.atom (Atom.int 1),
          SExpr.atom (Atom.int 0)]])
      [] []
      = (.ok (SExpr.atom (Atom.int 1)), []) := by
  have h := (c3_if_short_circuit 2
    (SExpr.list [SExpr.atom (Atom.sym ">"), SExpr.atom (Atom.int 3),
      SExpr.atom (Atom.int 2)])
    (SExpr.atom (Atom.int 1))
    (SExpr.list [SExpr.atom (Atom.sym "/"), SExpr.atom (Atom.int 1),
      SExpr.atom (Atom.int 0)])
    [] [] [] (SExpr.atom (Atom.int 1)) 1 rfl rfl).1 (by decide)
  exact h.trans rfl

/-! ## C4: comparison builtins win over user definitions -/

/-- The specified value of a comparison builtin: 1 when the comparison holds,
0 otherwise; `none` for a non-comparison operator. -/
def cmpResult (op : String) (a b : Int) : Option Int :=
  if op = "<" then some (if a < b then 1 else 0)
  else if op = ">" then some (if a > b then 1 else 0)
  else if op = "=" then some (if a = b then 1 else 0)
  else if op = "<=" then some (if a ≤ b then 1 else 0)
  else if op = ">=" then some (if a ≥ b then 1 else 0)
  else none

/-- C4: applying one of the comparison operators `<`, `>`, `=`, `<=`, `>=` to
exactly 2 integer operands returns integer 1 when the comparison holds and 0
otherwise, for EVERY session function store and environment — the comparison
is dispatched before user-defined function lookup, so a defun with the
operator's name never changes the result. -/
theorem c4_comparison_priority (fuel : Nat) (op : String) (a b : Int)
    (env : Bindings) (fs : FunctionStore) (v : Int)
    (h : cmpResult op a b = some v) :
    apply_with_env fuel op [SExpr.atom (Atom.int a), SExpr.atom (Atom.int b)]
      env fs
      = (.ok (SExpr.atom (Atom.int v)), fs) := by
  unfold cmpResult at h
  unfold apply_with_env apply_with_envW
  split_ifs at h ⊢ with h1 h2 h3 h4 h5 <;>
    simp_all [cmpOp, getLong]

/-- C4 witness: `(< 1 2)` returns 1 even when the session store holds a
user-defined function named "<". -/
theorem c4_comparison_priority_witness :
    cmpResult "<" 1 2 = some 1 ∧
    apply_with_env 1 "<" [SExpr.atom (Atom.int 1), SExpr.atom (Atom.int 2)]
      [] (fsDefine [] "<" (mkLambda ["a", "b"] (SExpr.atom (Atom.int 0))))
      = (.ok (SExpr.atom (Atom.int 1)),
         fsDefine [] "<" (mkLambda ["a", "b"] (SExpr.atom (Atom.int 0)))) :=
  ⟨rfl, c4_comparison_priority 1 "<" 1 2 []
    (fsDefine [] "<" (mkLambda ["a", "b"] (SExpr.atom (Atom.int 0)))) 1 rfl⟩

/-! ## C6: at most one live definition per name -/

theorem filter_ne_then_eq (fs : FunctionStore) (n : String) :
    (fs.filter (fun p => !(p.1 == n))).filter (fun p => p.1 == n) = [] := by
  rw [List.filter_filter]
  apply List.filter_eq_nil_iff.mpr
  intro p _
  by_cases h : p.1 == n <;> simp [h]

/-- C6: after `defun` stores a Lambda under name N, every prior entry for N
has been removed (the entries for N in the store are exactly the single new
pair), lookup of N returns the new Lambda, and a subsequent call uses only
the latest definition — concretely, after `(defun f (x) (+ x 1))` then
`(defun f (x) (+ x 2))`, the call `(f 10)` returns 12. -/
theorem c6_function_store_invariant (fs : FunctionStore) (n : String) (f : Lambda) :
    fsLookup (fsDefine fs n f) n = some f ∧
    (fsDefine fs n f).filter (fun p => p.1 == n) = [(n, f)] ∧
    eval_with_env 3
      (SExpr.list [SExpr.atom (Atom.sym "f"), SExpr.atom (Atom.int 10)]) []
      (fsDefine
        (fsDefine [] "f"
          (mkLambda ["x"]
            (SExpr.list [SExpr.atom (Atom.sym "+"), SExpr.atom (Atom.sym "x"),
              SExpr.atom (Atom.int 1)])))
        "f"
        (mkLambda ["x"]
          (SExpr.list [SExpr.atom (Atom.sym "+"), SExpr.atom (Atom.sym "x"),
            SExpr.atom (Atom.int 2)])))
      = (.ok (SExpr.atom (Atom.int 12)),
         fsDefine
           (fsDefine [] "f"
             (mkLambda ["x"]
               (SExpr.list [SExpr.atom (Atom.sym "+"), SExpr.atom (Atom.sym "x"),
                 SExpr.atom (Atom.int 1)])))
           "f"
           (mkLambda ["x"]
             (SExpr.list [SExpr.atom (Atom.sym "+"), SExpr.atom (Atom.sym "x"),
               SExpr.atom (Atom.int 2)]))) := by
  refine ⟨?_, ?_, rfl⟩
  · unfold fsLookup fsDefine
    simp
  · unfold fsDefine
    rw [List.filter_append, filter_ne_then_eq]
    simp

/-! ## C7: user-defined function application -/

theorem envLookup_append (env2 ps2 : Bindings) (x : String) :
    envLookup (env2 ++ ps2) x =
      match envLookup ps2 x with
      | some v => some v
      | none => envLookup env2 x := by
  unfold envLookup
  rw [List.reverse_append, List.find?_append]
  rcases h : (ps2.reverse.find? (fun p => p.1 == x)) with _ | p <;>
    simp [h, Option.or]

/-- C7: applying an operator that is not a comparison builtin and is found in
the Function Store raises "Wrong number of arguments" when the argument count
differs from the parameter count; otherwise it evaluates the Lambda's
retrieved body in a fresh environment that copies every caller binding and
appends the parameters bound to the already-evaluated arguments in call
order. In that environment lookup scans most-recently-added first: a name
bound among the appended pairs shadows any same-named caller binding. -/
theorem c7_user_function_application (n : Nat) (op : String)
    (operands : List SExpr) (env : Bindings) (fs : FunctionStore) (f : Lambda)
    (hncmp : op ≠ "<" ∧ op ≠ ">" ∧ op ≠ "=" ∧ op ≠ "<=" ∧ op ≠ ">=")
    (hf : fsLookup fs op = some f) :
    (operands.length ≠ f.params.length →
      apply_with_env n op operands env fs
        = (.error "Wrong number of arguments", fs)) ∧
    (operands.length = f.params.length →
      apply_with_env n op operands env fs
        = eval_with_env n f.get_body (env ++ f.params.zip operands) fs) ∧
    (∀ (env2 ps2 : Bindings) (x : String),
      envLookup (env2 ++ ps2) x =
        match envLookup ps2 x with
        | some v => some v
        | none => envLookup env2 x) := by
  obtain ⟨h1, h2, h3, h4, h5⟩ := hncmp
  refine ⟨?_, ?_, fun env2 ps2 x => envLookup_append env2 ps2 x⟩
  · intro hlen
    unfold apply_with_env apply_with_envW
    rw [if_neg h1, if_neg h2, if_neg h3, if_neg h4, if_neg h5, hf]
    simp [hlen]
  · intro hlen
    unfold apply_with_env apply_with_envW
    rw [if_neg h1, if_neg h2, if_neg h3, if_neg h4, if_neg h5, hf]
    simp [hlen]

/-- C7 witness: calling `square` (body `(* x x)`) on the evaluated argument 7
builds the fresh environment [("x", 7)] and returns 49; calling it with two
arguments is an arity error. -/
theorem c7_user_function_application_witness :
    apply_with_env 2 "square" [SExpr.atom (Atom.int 7)] []
      (fsDefine [] "square"
        (mkLambda ["x"]
          (SExpr.list [SExpr.atom (Atom.sym "*"), SExpr.atom (Atom.sym "x"),
            SExpr.atom (Atom.sym "x")])))
      = (.ok (SExpr.atom (Atom.int 49)),
         fsDefine [] "square"
           (mkLambda ["x"]
             (SExpr.list [SExpr.atom (Atom.sym "*"), SExpr.atom (Atom.sym "x"),
               SExpr.atom (Atom.sym "x")]))) ∧
    apply_with_env 2 "square" [SExpr.atom (Atom.int 7), SExpr.atom (Atom.int 8)]
      []
      (fsDefine [] "square"
        (mkLambda ["x"]
          (SExpr.list [SExpr.atom (Atom.sym "*"), SExpr.atom (Atom.sym "x"),
            SExpr.atom (Atom.sym "x")])))
      = (.error "Wrong number of arguments",
         fsDefine [] "square"
           (mkLambda ["x"]
             (SExpr.list [SExpr.atom (Atom.sym "*"), SExpr.atom (Atom.sym "x"),
               SExpr.atom (Atom.sym "x")]))) := by
  constructor
  · have h := (c7_user_function_application 2 "square" [SExpr.atom (Atom.int 7)]
      []
      (fsDefine [] "square"
        (mkLambda ["x"]
          (SExpr.list [SExpr.atom (Atom.sym "*"), SExpr.atom (Atom.sym "x"),
            SExpr.atom (Atom.sym "x")])))
      (mkLambda ["x"]
        (SExpr.list [SExpr.atom (Atom.sym "*"), SExpr.atom (Atom.sym "x"),
          SExpr.atom (Atom.sym "x")]))
      (by refine ⟨?_, ?_, ?_, ?_, ?_⟩ <;> decide) rfl).2.1 rfl
    exact h.trans rfl
  · exact (c7_user_function_application 2 "square"
      [SExpr.atom (Atom.int 7), SExpr.atom (Atom.int 8)] []
      (fsDefine [] "square"
        (mkLambda ["x"]
          (SExpr.list [SExpr.atom (Atom.sym "*"), SExpr.atom (Atom.sym "x"),
            SExpr.atom (Atom.sym "x")])))
      (mkLambda ["x"]
        (SExpr.list [SExpr.atom (Atom.sym "*"), SExpr.atom (Atom.sym "x"),
          SExpr.atom (Atom.sym "x")]))
      (by refine ⟨?_, ?_, ?_, ?_, ?_⟩ <;> decide) rfl).1 (by decide)

/-! ## C8: division -/

theorem tdiv_toward_zero (a b : Int) :
    Int.tdiv a b = (Int.sign a * Int.sign b) * (a.natAbs / b.natAbs : Nat) := by
  rcases a with m | m <;> rcases b with n | n <;> simp [Int.tdiv] <;>
    rcases n with _ | n <;> rcases m with _ | m <;> simp [Int.sign]

/-- C8: `/` requires exactly two operands, both integers. Any other arity is
an error; a non-integer operand is an error; divisor 0 is an error; otherwise
the result is the integer quotient truncated toward zero (its magnitude is
the floor of |a|/|b| and its sign the product of the operand signs). -/
theorem c8_division (operands : List SExpr) (x y : SExpr) (a b : Int) :
    (operands.length ≠ 2 →
      apply_op "/" operands = .error "'/' requires exactly two arguments") ∧
    (b ≠ 0 →
      apply_op "/" [SExpr.atom (Atom.int a), SExpr.atom (Atom.int b)]
          = .ok (SExpr.atom (Atom.int (Int.tdiv a b))) ∧
        Int.tdiv a b = (Int.sign a * Int.sign b) * (a.natAbs / b.natAbs : Nat)) ∧
    (apply_op "/" [SExpr.atom (Atom.int a), SExpr.atom (Atom.int 0)]
      = .error "Division by zero") ∧
    ((∀ m, x ≠ SExpr.atom (Atom.int m)) →
      apply_op "/" [x, y] = .error "Expected a number") ∧
    ((∀ m, y ≠ SExpr.atom (Atom.int m)) →
      apply_op "/" [SExpr.atom (Atom.int a), y] = .error "Expected a number") := by
  have hxnum : ∀ z : SExpr, (∀ m, z ≠ SExpr.atom (Atom.int m)) →
      getLong z = .error "Expected a number" := by
    intro z hz
    match z with
    | .atom (.int m) => exact absurd rfl (hz m)
    | .atom (.sym s) => rfl
    | .list l => rfl
  refine ⟨?_, ?_, rfl, ?_, ?_⟩
  · intro hlen
    unfold apply_op
    norm_num
    match operands, hlen with
    | [], _ => rfl
    | [x1], _ => rfl
    | x1 :: x2 :: x3 :: rest, _ => rfl
    | [x1, x2], h => exact absurd rfl h
  · intro hb
    exact ⟨by unfold apply_op; norm_num; simp [getLong, hb], tdiv_toward_zero a b⟩
  · intro hx
    unfold apply_op
    norm_num
    simp [hxnum x hx]
  · intro hy
    unfold apply_op
    norm_num
    simp [getLong, hxnum y hy]

/-- C8 witness: `(/ -7 2)` truncates toward zero to -3 (floor division would
give -4), `(/ -7 0)` is a division-by-zero error, and `(/)` is an arity
error. -/
theorem c8_division_witness :
    apply_op "/" [SExpr.atom (Atom.int (-7)), SExpr.atom (Atom.int 2)]
      = .ok (SExpr.atom (Atom.int (-3))) ∧
    apply_op "/" [SExpr.atom (Atom.int (-7)), SExpr.atom (Atom.int 0)]
      = .error "Division by zero" ∧
    apply_op "/" [] = .error "'/' requires exactly two arguments" := by
  have h := c8_division [] (SExpr.list []) (SExpr.list []) (-7) 2
  refine ⟨?_, h.2.2.1, h.1 (by decide)⟩
  rw [(h.2.1 (by decide)).1]
  have ht : Int.tdiv (-7) 2 = -3 := by decide
  rw [ht]

/-! ## C9: determinism -/

/-- C9: evaluation is deterministic — two `evaluate` calls on identical input
texts against equal session states (equal bindings and equal function store)
return identical results and identical final states. -/
theorem c9_determinism (fuel : Nat) (t1 t2 : String) (env1 env2 : Bindings)
    (fs1 fs2 : FunctionStore)
    (ht : t1 = t2) (henv : env1 = env2) (hfs : fs1 = fs2) :
    evaluate fuel t1 env1 fs1 = evaluate fuel t2 env2 fs2 := by
  subst ht henv hfs
  rfl

/-- C9 witness: two identical calls on the text `(+ 10 (* 2 5))` in the empty
session agree (and both produce 20). -/
theorem c9_determinism_witness :
    evaluate 20 "(+ 10 (* 2 5))" [] [] = evaluate 20 "(+ 10 (* 2 5))" [] [] ∧
    evaluate 20 "(+ 10 (* 2 5))" [] [] = (.ok (SExpr.atom (Atom.int 20)), []) :=
  ⟨c9_determinism 20 "(+ 10 (* 2 5))" "(+ 10 (* 2 5))" [] [] [] [] rfl rfl rfl,
    rfl⟩

/-! ## C10: the Lambda body round-trip quirk -/

/-- C10: storing a defun body that is a list with exactly one atom element
(such as the zero-argument call `(f)` or `(5)`) and retrieving it yields the
bare atom, not the one-element list; every other body shape is returned
unchanged. Consequently a call of a function defined as `(defun g () (5))`
evaluates the bare atom 5 (self-evaluation) and returns 5, while evaluating
the written body `(5)` would be the error "Operator must be a symbol". -/
theorem c10_lambda_body_quirk :
    (∀ (ps : List String) (b : SExpr),
      (mkLambda ps b).get_body =
        match b with
        | .list [SExpr.atom a] => SExpr.atom a
        | _ => b) ∧
    eval_with_env 2 (SExpr.list [SExpr.atom (Atom.sym "g")]) []
      (fsDefine [] "g" (mkLambda [] (SExpr.list [SExpr.atom (Atom.int 5)])))
      = (.ok (SExpr.atom (Atom.int 5)),
         fsDefine [] "g" (mkLambda [] (SExpr.list [SExpr.atom (Atom.int 5)]))) ∧
    eval_with_env 2 (SExpr.list [SExpr.atom (Atom.int 5)]) []
      (fsDefine [] "g" (mkLambda [] (SExpr.list [SExpr.atom (Atom.int 5)])))
      = (.error "Operator must be a symbol",
         fsDefine [] "g" (mkLambda [] (SExpr.list [SExpr.atom (Atom.int 5)]))) := by
  refine ⟨?_, rfl, rfl⟩
  intro ps b
  match b with
  | .atom a => rfl
  | .list [] => rfl
  | .list [SExpr.atom a] => rfl
  | .list [SExpr.list l] => rfl
  | .list (SExpr.atom a :: y :: rest) => rfl
  | .list (SExpr.list l :: y :: rest) => rfl

end MiniLisp
